import Mathlib

/-!
# Verified embedding of the `goreadability` text-statistics library

This file gives a shallow embedding, in Lean 4, of the Go package
`goreadability` (packages `stats`, `cli`, `gulpease`, `it`) and proves
properties of the counting primitives (`CountSymbols`, `CountCharacters`,
`CountWords`, `CountSentences`, `CountSyllables`) and of the readability
formulas (`CalculateCLI`, `Gulpease`, `CalcGulpease`).

Modelling conventions:
* A Go string is modelled as a Lean `String`; its sequence of Unicode scalar
  values is `String.data : List Char`.  The counting primitives under study
  range over runes, so byte-level and rune-level views coincide for them;
  where the source indexes bytes (`CountSyllables`), the embedding notes it.
* Go's `int` is modelled as the unbounded `Int` (Go guarantees
  `len(s) ≤ 2^63 - 1`, so counts derived from a string never overflow
  `int`); the explicit conversions `uint(...)` in the source, where wraparound
  can and does matter, are modelled by `uintOfInt`, reduction modulo `2^64`.
* `float64` arithmetic in the formula packages is modelled by exact rational
  arithmetic over `ℚ`, and `math.Round` by rounding half away from zero.
* A Go runtime panic (out-of-range string index) is modelled by `Option`:
  a function that can panic returns `none` exactly on the panicking inputs.
-/

namespace GoReadability

/-- Go conversion `uint(n)` of a signed 64-bit value `n`:
two's-complement wraparound, i.e. reduction modulo `2^64`. -/
def uintOfInt (n : Int) : Nat := (n % (2 ^ 64)).toNat

/-- `matchesAt pat l` is true iff `pat` is an initial segment of `l`
(the elementary step of Go's `strings.Count` scan). -/
def matchesAt : List Char → List Char → Bool
  | [], _ => true
  | _ :: _, [] => false
  | p :: ps, c :: cs => p == c && matchesAt ps cs

/-- Fuelled scan counting leftmost non-overlapping occurrences of the
pattern `pat` in a list of characters: at each position, if `pat` matches,
count it and resume after the matched segment, otherwise advance one
character.  `fuel` is an upper bound on the number of steps; callers pass
the length of the list, which suffices because every step consumes at least
one character. -/
def countOccFuel (pat : List Char) : Nat → List Char → Nat
  | 0, _ => 0
  | fuel + 1, l =>
    match l with
    | [] => 0
    | _ :: rest =>
      if matchesAt pat l then
        1 + countOccFuel pat fuel (List.drop (pat.length - 1) rest)
      else
        countOccFuel pat fuel rest

/-- Go `strings.Count(s, pat)`: the number of non-overlapping instances of
`pat` in `s`; for the empty pattern, 1 + the number of runes in `s`. -/
def goCount (pat s : String) : Nat :=
  if pat.data.isEmpty then s.data.length + 1
  else countOccFuel pat.data s.data.length s.data

/-- Go `unicode.IsSpace`, restricted to the Latin-1 range actually exercised
here: `'\t'`, `'\n'`, `'\v'`, `'\f'`, `'\r'`, `' '`, U+0085 (NEL),
U+00A0 (NBSP).  (The higher Unicode space code points accepted by Go are
not used by any claim.) -/
def goIsSpace (c : Char) : Bool :=
  c == ' ' || c == '\t' || c == '\n' || c == '\x0b' || c == '\x0c' ||
  c == '\r' || c == '\u0085' || c == '\u00A0'

/-- Fuelled count of whitespace-separated fields, as produced by Go's
`strings.Fields`: the number of maximal runs of non-space characters. -/
def countFieldsFuel : Nat → List Char → Nat
  | 0, _ => 0
  | fuel + 1, l =>
    match l with
    | [] => 0
    | c :: rest =>
      if goIsSpace c then countFieldsFuel fuel rest
      else 1 + countFieldsFuel fuel (rest.dropWhile (fun d => !goIsSpace d))

/-- `len(strings.Fields(s))`: the number of maximal runs of non-space
characters of `s`. -/
def countFields (l : List Char) : Nat := countFieldsFuel l.length l

/-- Go `unicode.IsDigit(c) || unicode.IsLetter(c)`, modelled on the ASCII
fragment of the Unicode categories (sufficient here: the properties proved
below only use that `'\n'` and punctuation are neither letters nor digits). -/
def goIsLetterOrDigit (c : Char) : Bool := c.isDigit || c.isAlpha

/-- The abbreviation table of package `stats` (`var abbreviations
map[string]uint`), as a key/weight association list in source order; Go map
iteration order is unspecified, and every use below is order-independent. -/
def abbreviations : List (String × Nat) :=
  [("u.s.", 2),
   ("mr.", 1), ("messrs.", 1), ("mrs.", 1), ("mmes.", 1), ("ms.", 1),
   ("dr.", 1), ("prof.", 1), ("capt.", 1), ("st.", 1), ("revd.", 1),
   ("rev.", 1),
   ("jan.", 1), ("feb.", 1), ("mar.", 1), ("apr.", 1), ("aug.", 1),
   ("sept.", 1), ("oct.", 1), ("nov.", 1), ("dec.", 1),
   ("a.m.", 2), ("p.m.", 2), ("i.e.", 2), ("e.g.", 2), ("a.d.", 2),
   ("b.c.", 2), ("b.c.e.", 3), ("c.e.", 2), ("n.b.", 2)]

/-- `stats.CountSymbols`: 0 for the empty string, otherwise
`uint(RuneCountInString(s) - Count(s, "\n") - 2*Count(s, "..."))`. -/
def CountSymbols (s : String) : Nat :=
  if s = "" then 0
  else
    uintOfInt ((s.data.length : Int) - (goCount "\n" s : Int) -
      2 * (goCount "..." s : Int))

/-- `stats.CountCharacters`: 0 for the empty string, otherwise the number of
runes classified as digit or letter, converted to `uint`. -/
def CountCharacters (s : String) : Nat :=
  if s = "" then 0
  else uintOfInt ((s.data.filter goIsLetterOrDigit).length : Int)

/-- `stats.CountWords`: 0 for the empty string; otherwise newlines are
replaced by spaces (the source guards the replacement by
`strings.Count(s, "\n") > 0`, which does not change the result) and the
fields of the result are counted. -/
def CountWords (s : String) : Nat :=
  if s = "" then 0
  else
    let t := if goCount "\n" s > 0
      then s.data.map (fun c => if c == '\n' then ' ' else c)
      else s.data
    uintOfInt (countFields t : Int)

/-- `stats.CountSentences`: 0 for the empty string; otherwise the counts of
`'.'`, `'!'` and `'?'` are added, and for every abbreviation-table key that
occurs in `s` (a case-sensitive `strings.Count` of the lowercase key against
the original text), `count * weight` is subtracted; the signed result is
converted to `uint`. -/
def CountSentences (s : String) : Nat :=
  if s = "" then 0
  else
    let points := goCount "." s
    let exclamations := goCount "!" s
    let questions := goCount "?" s
    let corr := abbreviations.foldl
      (fun acc kw =>
        let c := goCount kw.1 s
        if c > 0 then acc + c * kw.2 else acc) 0
    uintOfInt ((points : Int) + (exclamations : Int) + (questions : Int) -
      (corr : Int))

/-- Go `isVowel` of package `stats`:
`strings.ContainsRune("aeiouy", char)`. -/
def isVowel (c : Char) : Bool :=
  c == 'a' || c == 'e' || c == 'i' || c == 'o' || c == 'u' || c == 'y'

/-- The vowel-group loop of `stats.CountSyllables`: counts transitions from
non-vowel (the second argument is the `prev_is_vowel` flag) to vowel. -/
def countVowelGroups : List Char → Bool → Nat
  | [], _ => 0
  | c :: rest, prev =>
    if isVowel c then (if prev then 0 else 1) + countVowelGroups rest true
    else countVowelGroups rest false

/-- `stats.CountSyllables`.  The source lowercases `s` into `lower_case`,
counts vowel groups over `lower_case`, then performs suffix corrections by
indexing and slicing the ORIGINAL string `s` at positions computed from
`len(lower_case)` (for the inputs in scope lowercasing is length-preserving,
so the model uses a single length `n`).  The unguarded access
`s[len(lower_case)-1]` panics on the empty string: modelled by `none`.
The running count is a signed `int` (here `Int`), converted to `uint` at
the end.  Note the source compares the 3-character slice
`s[len(lower_case)-3:]` with the 2-character literal `"ed"`, faithfully kept
here as `l.drop (n - 3) == ['e', 'd']`. -/
def CountSyllables (s : String) : Option Nat :=
  let l := s.data
  let lc := l.map Char.toLower
  let n := lc.length
  if n = 0 then none
  else
    let s0 : Int := countVowelGroups lc false
    let s1 : Int := if l.getD (n - 1) ' ' == 'e' then s0 - 1 else s0
    let s2 : Int :=
      if n > 2 then
        if l.drop (n - 2) == ['l', 'e'] || l.drop (n - 3) == ['l', 'e', 's'] then
          if !isVowel (l.getD (n - 3) ' ') then s1 + 1 else s1
        else if l.drop (n - 3) == ['e', 'd'] then
          if l.getD (n - 3) ' ' == 't' then s1 + 1
          else if isVowel (l.getD (n - 3) ' ') then s1 - 1
          else s1
        else if l.drop (n - 2) == ['e', 's'] then
          if !isVowel (l.getD (n - 3) ' ') &&
             (l.getD (n - 3) ' ' != 'w' || l.getD (n - 3) ' ' != 'x' ||
              l.getD (n - 3) ' ' != 'y') then s1 + 1
          else s1
        else s1
      else s1
    let s3 : Int := if s2 = 0 then 1 else s2
    some (uintOfInt s3)

/-- The variant of `CountSyllables` described by the spec's reading of the
`"es"` branch: the `'w'`/`'x'`/`'y'` consonant-exclusion check is removed,
so the branch increments exactly when the character three from the end is
not a vowel.  Everything else is identical to `CountSyllables`. -/
def countSyllablesNoWxy (s : String) : Option Nat :=
  let l := s.data
  let lc := l.map Char.toLower
  let n := lc.length
  if n = 0 then none
  else
    let s0 : Int := countVowelGroups lc false
    let s1 : Int := if l.getD (n - 1) ' ' == 'e' then s0 - 1 else s0
    let s2 : Int :=
      if n > 2 then
        if l.drop (n - 2) == ['l', 'e'] || l.drop (n - 3) == ['l', 'e', 's'] then
          if !isVowel (l.getD (n - 3) ' ') then s1 + 1 else s1
        else if l.drop (n - 3) == ['e', 'd'] then
          if l.getD (n - 3) ' ' == 't' then s1 + 1
          else if isVowel (l.getD (n - 3) ' ') then s1 - 1
          else s1
        else if l.drop (n - 2) == ['e', 's'] then
          if !isVowel (l.getD (n - 3) ' ') then s1 + 1
          else s1
        else s1
      else s1
    let s3 : Int := if s2 = 0 then 1 else s2
    some (uintOfInt s3)

/-- Go `math.Round` (round half away from zero), on the exact-rational model
of `float64`. -/
def goRound (q : ℚ) : Int :=
  if q < 0 then -(Int.floor (-q + 1 / 2)) else Int.floor (q + 1 / 2)

/-- `cli.CalculateCLI`: errors on the empty string and on zero words;
otherwise `5.88*(characters/words) - 29.6*(sentences/words) - 15.8`,
rounded to one decimal place (`math.Round(cli*10)/10`).  `float64` is
modelled by `ℚ`. -/
def CalculateCLI (s : String) : Except String ℚ :=
  if s = "" then .error "Empty string."
  else
    let characters : ℚ := CountCharacters s
    let words : ℚ := CountWords s
    let sentences : ℚ := CountSentences s
    if words = 0 then
      .error "No words were parsed. Cannot calculate Coleman–Liau index (CLI)."
    else
      let cli : ℚ := 5.88 * (characters / words) - 29.6 * (sentences / words) - 15.8
      .ok ((goRound (cli * 10) : ℚ) / 10)

/-- `gulpease.Gulpease`: errors on the empty string and on zero words;
otherwise `uint(math.Round(89 + (300*sentences - 10*characters)/words))`.
The conversion of an out-of-range (in particular negative) `float64` to
`uint` is implementation-dependent in Go; it is modelled here, like the
`int`-to-`uint` conversions, as two's-complement wraparound modulo
`2^64`. -/
def Gulpease (s : String) : Except String Nat :=
  if s = "" then .error "Empty string."
  else
    let words : ℚ := CountWords s
    if words = 0 then
      .error "No words were parsed. Cannot calculate Gulpease readability index."
    else
      let characters : ℚ := CountCharacters s
      let sentences : ℚ := CountSentences s
      let raw : ℚ := 89 + ((300 * sentences - 10 * characters) / words)
      .ok (uintOfInt (goRound raw))

/-- `it.CalcGulpease`: textually the same computation as
`gulpease.Gulpease`, embedded separately from its own source. -/
def CalcGulpease (s : String) : Except String Nat :=
  if s = "" then .error "Empty string."
  else
    let words : ℚ := CountWords s
    if words = 0 then
      .error "No words were parsed. Cannot calculate Gulpease readability index."
    else
      let characters : ℚ := CountCharacters s
      let sentences : ℚ := CountSentences s
      let raw : ℚ := 89 + ((300 * sentences - 10 * characters) / words)
      .ok (uintOfInt (goRound raw))

/-! ## Helper lemmas -/

theorem uintOfInt_eq_of_nonneg (n : Int) (h0 : 0 ≤ n) (h1 : n < 2 ^ 64) :
    (uintOfInt n : Int) = n := by
  unfold uintOfInt
  rw [Int.emod_eq_of_lt h0 h1, Int.toNat_of_nonneg h0]

theorem uintOfInt_natCast (n : Nat) (h : (n : Int) < 2 ^ 64) :
    uintOfInt (n : Int) = n := by
  have h' := uintOfInt_eq_of_nonneg (n : Int) (by positivity) h
  exact_mod_cast h'

/-- A single-character `strings.Count` scan, given enough fuel, is the plain
per-character count. -/
theorem countOccFuel_single (c : Char) :
    ∀ (fuel : Nat) (l : List Char), l.length ≤ fuel →
      countOccFuel [c] fuel l = l.countP (fun d => c == d) := by
  intro fuel
  induction fuel with
  | zero =>
    intro l h
    have : l = [] := List.eq_nil_of_length_eq_zero (Nat.le_zero.mp h)
    subst this
    simp [countOccFuel]
  | succ fuel ih =>
    intro l h
    match l with
    | [] => simp [countOccFuel]
    | c1 :: rest =>
      have hlen : rest.length ≤ fuel := by
        simp only [List.length_cons] at h
        omega
      by_cases hc : (c == c1) = true
      · simp [countOccFuel, matchesAt, hc, List.countP_cons, ih rest hlen]
        omega
      · simp [countOccFuel, matchesAt, hc, List.countP_cons, ih rest hlen,
          Bool.and_eq_true]

/-- Disjointness bound used by `CountSymbols`/`CountCharacters` claims:
letters/digits, newline characters, and the three dots of every
non-overlapping `"..."` occurrence are pairwise distinct characters, so the
three counts weighted accordingly never exceed the length. -/
theorem filter_nl_dots_bound :
    ∀ (fuel : Nat) (l : List Char), l.length ≤ fuel →
      (l.filter goIsLetterOrDigit).length + l.countP (fun d => '\n' == d) +
        3 * countOccFuel ['.', '.', '.'] fuel l ≤ l.length := by
  intro fuel
  induction fuel with
  | zero =>
    intro l h
    have : l = [] := List.eq_nil_of_length_eq_zero (Nat.le_zero.mp h)
    subst this
    simp [countOccFuel]
  | succ fuel ih =>
    intro l h
    match l with
    | [] => simp [countOccFuel]
    | c :: rest =>
      by_cases hm : matchesAt ['.', '.', '.'] (c :: rest) = true
      · match rest with
        | [] => simp [matchesAt] at hm
        | c1 :: rest1 =>
          match rest1 with
          | [] => simp [matchesAt] at hm
          | c2 :: t =>
            simp only [matchesAt, Bool.and_eq_true, beq_iff_eq,
              Bool.and_true] at hm
            obtain ⟨hc, hc1, hc2⟩ := hm
            subst hc; subst hc1; subst hc2
            have hlen : t.length ≤ fuel := by
              simp only [List.length_cons] at h
              omega
            have hIH := ih t hlen
            have hstep : countOccFuel ['.', '.', '.'] (fuel + 1)
                ('.' :: '.' :: '.' :: t)
                = 1 + countOccFuel ['.', '.', '.'] fuel t := rfl
            rw [hstep]
            have hdot : goIsLetterOrDigit '.' = false := by decide
            have hnl : ('\n' == '.') = false := by decide
            simp [List.filter_cons, List.countP_cons, hdot, hnl]
            omega
      · have hlen : rest.length ≤ fuel := by
          simp only [List.length_cons] at h
          omega
        have hIH := ih rest hlen
        have hstep : countOccFuel ['.', '.', '.'] (fuel + 1) (c :: rest)
            = countOccFuel ['.', '.', '.'] fuel rest := by
          simp only [countOccFuel]
          rw [if_neg hm]
        rw [hstep]
        simp only [List.filter_cons, List.countP_cons, List.length_cons]
        by_cases hc : c = '\n'
        · have h1 : goIsLetterOrDigit c = false := by subst hc; decide
          have h2 : ('\n' == c) = true := by subst hc; decide
          simp [h1, h2]
          omega
        · have h2 : ('\n' == c) = false := by
            simp only [beq_eq_false_iff_ne]
            exact fun he => hc he.symm
          by_cases h1 : goIsLetterOrDigit c = true <;> simp [h1, h2] <;>
            omega

theorem goCount_newline (s : String) :
    goCount "\n" s = s.data.countP (fun d => '\n' == d) :=
  countOccFuel_single '\n' s.data.length s.data le_rfl

theorem goCount_dots (s : String) :
    goCount "..." s = countOccFuel ['.', '.', '.'] s.data.length s.data := rfl

/-- The combined bound, phrased through the embedded `strings.Count`. -/
theorem counts_bound (s : String) :
    (s.data.filter goIsLetterOrDigit).length + goCount "\n" s +
      3 * goCount "..." s ≤ s.data.length := by
  rw [goCount_newline, goCount_dots]
  exact filter_nl_dots_bound s.data.length s.data le_rfl

/-- The guarded fold accumulating the abbreviation correction equals the
plain sum of `count * weight` over the table. -/
theorem foldl_corr_eq_sum (s : String) :
    ∀ (l : List (String × Nat)) (acc : Nat),
      l.foldl (fun acc kw =>
        let c := goCount kw.1 s
        if c > 0 then acc + c * kw.2 else acc) acc
      = acc + (l.map (fun kw => goCount kw.1 s * kw.2)).sum := by
  intro l
  induction l with
  | nil => intro acc; simp
  | cons hd tl ih =>
    intro acc
    rw [List.foldl_cons, ih]
    simp only [List.map_cons, List.sum_cons]
    by_cases h : goCount hd.1 s > 0
    · rw [if_pos h]
      omega
    · rw [if_neg h]
      have h0 : goCount hd.1 s = 0 := by omega
      rw [h0]
      omega

/-- The consonant-exclusion disjunction of the `"es"` branch is a
tautology: no character differs from none of `'w'`, `'x'`, `'y'`. -/
theorem wxy_always_true (c : Char) :
    (c != 'w' || c != 'x' || c != 'y') = true := by
  by_cases h : c = 'w'
  · subst h; decide
  · simp only [Bool.or_eq_true, bne_iff_ne]
    exact Or.inl (Or.inl h)

/-- For strings of Go-representable length the conversion to `uint` in
`CountSymbols` is lossless: the subtraction never goes negative, because
every `"..."` occurrence occupies three non-newline runes. -/
theorem countSymbols_intCast (s : String) (h : s.data.length ≤ 2 ^ 63 - 1) :
    (CountSymbols s : Int) =
      (s.data.length : Int) - (goCount "\n" s : Int) -
        2 * (goCount "..." s : Int) := by
  by_cases h0 : s = ""
  · subst h0; decide
  · have hb := counts_bound s
    simp only [CountSymbols, if_neg h0]
    exact uintOfInt_eq_of_nonneg _ (by omega) (by omega)

/-! ## Claim theorems -/

/-- Claim C1, counterexample: the claim states that abbreviation keys are
matched case-insensitively and that `CountSentences "Dr. Smith went home."`
is `1`.  The source counts the lowercase key `"dr."` in the original text
with the case-sensitive `strings.Count`, finds no occurrence, applies no
correction, and returns `2` for the two dots. -/
theorem countSentences_dr_smith_ne_one :
    CountSentences "Dr. Smith went home." ≠ 1 := by decide

/-- Claim C1, amended: for every text, `CountSentences` subtracts the
abbreviation correction for every table key that appears in the text matched
case-sensitively (lowercase keys against the original text), i.e. it returns
the `uint` conversion of raw punctuation count minus the sum of
`occurrences * weight` over the table; in particular
`CountSentences "Dr. Smith went home." = 2`, the abbreviation `"Dr."`
contributing nothing because `"dr."` does not occur case-sensitively. -/
theorem countSentences_case_sensitive_correction :
    (∀ s : String,
      CountSentences s =
        uintOfInt ((goCount "." s : Int) + (goCount "!" s : Int) +
          (goCount "?" s : Int) -
          ((abbreviations.map (fun kw => goCount kw.1 s * kw.2)).sum : Int))) ∧
    CountSentences "Dr. Smith went home." = 2 := by
  constructor
  · intro s
    by_cases h : s = ""
    · subst h; decide
    · simp only [CountSentences, if_neg h,
        foldl_corr_eq_sum s abbreviations 0, Nat.zero_add]
  · decide

/-- Claim C2, code bug: on the input `"b.c.e."` the overlapping abbreviation
keys `"b.c."`, `"b.c.e."` and `"c.e."` all occur, so the correction is
2 + 3 + 2 = 7 while the raw count of `'.'`, `'!'`, `'?'` is only 3; the
signed difference -4 is converted to `uint` and `CountSentences` returns
2^64 - 4, a wraparound the claim says cannot happen. -/
theorem countSentences_bce_wraparound :
    CountSentences "b.c.e." = 18446744073709551612 ∧
    goCount "." "b.c.e." + goCount "!" "b.c.e." + goCount "?" "b.c.e." = 3 ∧
    (abbreviations.map (fun kw => goCount kw.1 "b.c.e." * kw.2)).sum = 7 := by
  decide

/-- Claim C3, code bug: `CountSyllables` evaluates `s[len(lower_case)-1]`
before any length guard, so on the empty string it panics with an
out-of-range index (modelled by `none`), contrary to the claim that every
string, including the empty one, is handled without indexing out of bounds.
The in-range facts of the claim do hold: `CountSyllables "le" = 1 ≥ 1`,
`CountSyllables "table" = 2`, and a single-character word is guarded. -/
theorem countSyllables_empty_out_of_range :
    CountSyllables "" = none ∧
    CountSyllables "le" = some 1 ∧
    CountSyllables "table" = some 2 ∧
    CountSyllables "b" = some 1 := by
  decide

/-- Claim C4, code bug: the `"ed"` suffix branch compares the 3-character
slice `s[len(lower_case)-3:]` with the 2-character literal `"ed"`, which can
never be equal, so the branch is unreachable and neither the `'t'` increment
nor the vowel decrement ever fires: `"wanted"` (claim expects 3) returns its
uncorrected vowel-group count 2, `"agreed"` (claim expects 1) likewise
returns 2, and in general the branch condition is false for every word
longer than 2 characters. -/
theorem countSyllables_ed_branch_unreachable :
    CountSyllables "wanted" = some 2 ∧ CountSyllables "agreed" = some 2 ∧
    (∀ l : List Char, 2 < l.length →
      (l.drop (l.length - 3) == ['e', 'd']) = false) := by
  refine ⟨by decide, by decide, ?_⟩
  intro l hl
  rw [beq_eq_false_iff_ne]
  intro he
  have hlen := congrArg List.length he
  simp only [List.length_drop, List.length_cons, List.length_nil] at hlen
  omega

/-- Witness for `countSyllables_ed_branch_unreachable` at the concrete word
`"wanted"`. -/
theorem countSyllables_ed_branch_unreachable_witness :
    (List.drop ("wanted".data.length - 3) "wanted".data == ['e', 'd']) = false :=
  countSyllables_ed_branch_unreachable.2.2 "wanted".data (by decide)

/-- Claim C5: in the `"es"` branch of `CountSyllables` the
consonant-exclusion check `c != 'w' || c != 'x' || c != 'y'` is a tautology
and never excludes anything: the function with that check removed
(incrementing exactly when the character three from the end is not a vowel)
returns the same result as the implemented function on every input. -/
theorem countSyllables_wxy_check_redundant :
    ∀ s : String, CountSyllables s = countSyllablesNoWxy s := by
  intro s
  unfold CountSyllables countSyllablesNoWxy
  simp only [wxy_always_true, Bool.and_true]

/-- Claim C6: for every text of Go-representable length, `CountSymbols`
equals the count of Unicode scalar values minus the count of newline
characters minus twice the count of non-overlapping `"..."` substrings,
with no unsigned wraparound (stated over `Int`, so the equation itself
asserts the value is the true, non-negative difference), and the empty
input yields 0. -/
theorem countSymbols_formula (s : String) (h : s.data.length ≤ 2 ^ 63 - 1) :
    ((CountSymbols s : Int) =
      (s.data.length : Int) - (goCount "\n" s : Int) -
        2 * (goCount "..." s : Int)) ∧
    CountSymbols "" = 0 :=
  ⟨countSymbols_intCast s h, rfl⟩

/-- Witness for `countSymbols_formula` at the concrete text `"a...b\n"`. -/
theorem countSymbols_formula_witness :
    ((CountSymbols "a...b\n" : Int) =
      ("a...b\n".data.length : Int) - (goCount "\n" "a...b\n" : Int) -
        2 * (goCount "..." "a...b\n" : Int)) ∧
    CountSymbols "" = 0 :=
  countSymbols_formula "a...b\n" (by decide)

/-- Claim C7: for every non-empty text (of Go-representable length),
`CountCharacters` is at most `CountSymbols`, which is at most the number of
Unicode scalar values of the text. -/
theorem countCharacters_le_countSymbols_le_length (s : String)
    (h1 : s ≠ "") (h2 : s.data.length ≤ 2 ^ 63 - 1) :
    CountCharacters s ≤ CountSymbols s ∧ CountSymbols s ≤ s.data.length := by
  have hb := counts_bound s
  have hfl : (s.data.filter goIsLetterOrDigit).length ≤ s.data.length :=
    List.length_filter_le _ _
  have hsym := countSymbols_intCast s h2
  have hchars : CountCharacters s = (s.data.filter goIsLetterOrDigit).length := by
    simp only [CountCharacters, if_neg h1]
    exact uintOfInt_natCast _ (by omega)
  constructor
  · omega
  · omega

/-- Witness for `countCharacters_le_countSymbols_le_length` at the concrete
text `"a...b\n"`. -/
theorem countCharacters_le_countSymbols_le_length_witness :
    CountCharacters "a...b\n" ≤ CountSymbols "a...b\n" ∧
    CountSymbols "a...b\n" ≤ "a...b\n".data.length :=
  countCharacters_le_countSymbols_le_length "a...b\n" (by decide) (by decide)

/-- Claim C8: `CalculateCLI` returns an error exactly when the input is
empty or its word count is zero; for every other input it returns, without
error, `5.88*(characters/words) - 29.6*(sentences/words) - 15.8` rounded to
one decimal place. -/
theorem calculateCLI_spec (s : String) :
    ((∃ e, CalculateCLI s = Except.error e) ↔ (s = "" ∨ CountWords s = 0)) ∧
    (s ≠ "" → CountWords s ≠ 0 →
      CalculateCLI s = Except.ok
        ((goRound ((5.88 * ((CountCharacters s : ℚ) / (CountWords s : ℚ)) -
          29.6 * ((CountSentences s : ℚ) / (CountWords s : ℚ)) - 15.8) * 10) : ℚ)
          / 10)) := by
  by_cases h0 : s = ""
  · subst h0
    constructor
    · simp [CalculateCLI]
    · intro h1
      exact absurd rfl h1
  · by_cases hw : CountWords s = 0
    · have hwq : (CountWords s : ℚ) = 0 := by rw [hw]; norm_num
      constructor
      · simp [CalculateCLI, h0, hwq, hw]
      · intro _ h2
        exact absurd hw h2
    · have hwq : (CountWords s : ℚ) ≠ 0 := by
        simpa using hw
      constructor
      · simp [CalculateCLI, h0, hwq, hw]
      · intro _ _
        simp [CalculateCLI, h0, hwq]

/-- Witness for `calculateCLI_spec` at the concrete text `"Hi."`. -/
theorem calculateCLI_spec_witness :
    CalculateCLI "Hi." = Except.ok
      ((goRound ((5.88 * ((CountCharacters "Hi." : ℚ) / (CountWords "Hi." : ℚ)) -
        29.6 * ((CountSentences "Hi." : ℚ) / (CountWords "Hi." : ℚ)) - 15.8) * 10) : ℚ)
        / 10) :=
  (calculateCLI_spec "Hi.").2 (by decide) (by decide)

/-- Claim C9, code bug: on a 20-letter single word with no sentence
terminator the raw Gulpease value is `89 + (300*0 - 10*20)/1 = -111`, which
`math.Round` keeps at -111; the claim says this negative value is returned,
but the function stores the result in a `uint`, and the conversion of the
negative value (implementation-dependent in Go, modelled as wraparound)
yields `2^64 - 111` instead. -/
theorem gulpease_negative_raw_wraps :
    Gulpease "aaaaaaaaaaaaaaaaaaaa" = Except.ok 18446744073709551505 ∧
    goRound (89 + (300 * (CountSentences "aaaaaaaaaaaaaaaaaaaa" : ℚ) -
      10 * (CountCharacters "aaaaaaaaaaaaaaaaaaaa" : ℚ)) /
      (CountWords "aaaaaaaaaaaaaaaaaaaa" : ℚ)) = -111 := by
  have hw : CountWords "aaaaaaaaaaaaaaaaaaaa" = 1 := by decide
  have hc : CountCharacters "aaaaaaaaaaaaaaaaaaaa" = 20 := by decide
  have hs : CountSentences "aaaaaaaaaaaaaaaaaaaa" = 0 := by decide
  have hne : ("aaaaaaaaaaaaaaaaaaaa" : String) ≠ "" := by decide
  have hround : goRound (89 + (300 * ((0 : Nat) : ℚ) - 10 * ((20 : Nat) : ℚ)) /
      ((1 : Nat) : ℚ)) = -111 := by
    norm_num [goRound]
  constructor
  · have hval : uintOfInt (goRound (89 + (300 * ((0 : Nat) : ℚ) -
        10 * ((20 : Nat) : ℚ)) / ((1 : Nat) : ℚ))) = 18446744073709551505 := by
      rw [hround]; decide
    simp only [Gulpease, if_neg hne, hw, hc, hs]
    rw [if_neg (by norm_num : ¬(((1 : Nat) : ℚ) = 0)), hval]
  · rw [hw, hc, hs, hround]

/-- Claim C10: the two exported Gulpease entry points, `gulpease.Gulpease`
and `it.CalcGulpease`, are embedded from their own sources and agree on
every input: the same score on success and an error in exactly the same
cases. -/
theorem gulpease_eq_calcGulpease : ∀ s : String, Gulpease s = CalcGulpease s :=
  fun _ => rfl

end GoReadability
